import Mathlib

/- Verification development for the IFCB permanent-identifier (pid) parsing code
(`ifcb/data/identifiers.py`) and the bin access layer (`ifcb/data/bins.py`).

The Python regular-expression layer is embedded shallowly.  Regex pattern
strings are parsed into a small syntax tree (`RE`) covering exactly the
constructs the source's patterns use, and are matched with a backtracking
engine (`mat`) that mirrors Python `re.match` semantics: anchored at the
start of the subject, not at the end; greedy quantifiers; leftmost
alternative first; one capture slot per group, `none` for a group that did
not participate; `.` matches any character except a newline; `$` matches at
the end of the subject or before a trailing newline.  Both the engine and
the pattern parser take a fuel argument and recurse structurally on it so
that every definition is kernel-computable; the fuel supplied at the entry
points is large enough for the recursion depth actually needed (each star
iteration must consume at least one character, as in Python, where a starred
expression is never re-entered without progress). -/

deriving instance DecidableEq for Except

namespace Ifcb

/-- Regex syntax tree: the constructs appearing in the source's patterns.
`cls neg items` is a character class (`neg` for `[^...]`), with `items` a
list of inclusive ranges (a single character `c` is the range `(c, c)`).
`grp i a` is capture group number `i` (0-based; Python group `i+1`).
Python's `e+`, `e?` and `e{n}` are compiled as `seq e (star e)`,
`alt e eps` and an `n`-fold `seq` respectively. -/
inductive RE where
  | eps
  | dot
  | eos
  | lit (c : Char)
  | cls (neg : Bool) (items : List (Char × Char))
  | seq (a b : RE)
  | alt (a b : RE)
  | star (a : RE)
  | grp (i : Nat) (a : RE)
  deriving Repr, DecidableEq

/-- Structural size of a regex tree, used to compute a sufficient fuel. -/
def sizeRE : RE → Nat
  | .eps | .dot | .eos | .lit _ | .cls _ _ => 1
  | .seq a b | .alt a b => sizeRE a + sizeRE b + 1
  | .star a | .grp _ a => sizeRE a + 1

/-- Membership of a character in a class given as inclusive ranges. -/
def inRanges (items : List (Char × Char)) (c : Char) : Bool :=
  items.any (fun p => p.1 ≤ c && c ≤ p.2)

/-- Backtracking matcher in continuation-passing style.  `caps` is the list
of capture slots (one per group of the whole pattern, `none` until the group
participates).  The continuation `k` receives the remaining input and the
updated capture slots; the first success in backtracking order (greedy
quantifiers, left alternative first) is returned, matching Python's `re`.
A star does not re-enter its body without consuming input (Python's engine
likewise refuses empty star iterations), which bounds the recursion depth;
`fuel` makes that bound structural. -/
def mat {α : Type} (fuel : Nat) (r : RE) (s : List Char)
    (caps : List (Option String))
    (k : List Char → List (Option String) → Option α) : Option α :=
  match fuel with
  | 0 => none
  | f + 1 =>
    match r with
    | .eps => k s caps
    | .eos => if s = [] ∨ s = ['\n'] then k s caps else none
    | .dot =>
      match s with
      | [] => none
      | c :: rest => if c = '\n' then none else k rest caps
    | .lit c =>
      match s with
      | [] => none
      | c' :: rest => if c' = c then k rest caps else none
    | .cls neg items =>
      match s with
      | [] => none
      | c :: rest => if inRanges items c ≠ neg then k rest caps else none
    | .seq a b => mat f a s caps (fun s1 c1 => mat f b s1 c1 k)
    | .alt a b =>
      match mat f a s caps k with
      | some v => some v
      | none => mat f b s caps k
    | .star a =>
      match mat f a s caps (fun s1 c1 =>
          if s1.length = s.length then none else mat f (.star a) s1 c1 k) with
      | some v => some v
      | none => k s caps
    | .grp i a =>
      mat f a s caps (fun s1 c1 =>
        k s1 (c1.set i (some (String.mk (List.take (s.length - s1.length) s)))))

/-- Fuel sufficient for `mat` on input `s`: the needed call depth is bounded
by `(length + 1) * (size + 1)` since every star iteration consumes input. -/
def matFuel (r : RE) (s : List Char) : Nat :=
  (s.length + 1) * (sizeRE r + 1) + 1

/-- Match a compiled pattern with `n` capture groups against a string,
anchored at the start (Python `re.match`): `some caps` on success, where
`caps` has one entry per group, `none` if the pattern does not match. -/
def reMatch (r : RE) (n : Nat) (s : String) : Option (List (Option String)) :=
  mat (matFuel r s.data) r s.data (List.replicate n none) (fun _ caps => some caps)

/-- Syntactic under-approximation of "every successful match consumes at
least one character". -/
def minOne : RE → Bool
  | .eps | .eos | .star _ => false
  | .dot | .lit _ | .cls _ _ => true
  | .seq a b => minOne a || minOne b
  | .alt a b => minOne a && minOne b
  | .grp _ a => minOne a

/-- Every capture group of the tree has a body that must consume input. -/
def allGrpMinOne : RE → Bool
  | .eps | .eos | .dot | .lit _ | .cls _ _ => true
  | .seq a b | .alt a b => allGrpMinOne a && allGrpMinOne b
  | .star a => allGrpMinOne a
  | .grp _ a => minOne a && allGrpMinOne a

/-- Capture slots holding only absent markers or non-empty strings. -/
def GoodCaps (caps : List (Option String)) : Prop :=
  ∀ os ∈ caps, ∀ st, os = some st → st ≠ ""

/-- Repeat a regex `n` times in sequence (`e{n}`). -/
def repRE (r : RE) : Nat → RE
  | 0 => .eps
  | n + 1 => .seq r (repRE r n)

/-- Read a decimal number (used for `{n}` counters); returns the value and
the rest of the input. -/
def pNum : List Char → Nat → Nat × List Char
  | [], acc => (acc, [])
  | c :: s, acc =>
    if c.isDigit then pNum s (acc * 10 + (c.toNat - '0'.toNat))
    else (acc, c :: s)

/-- Parse the body of a character class up to the closing `]`:
`a-z` is a range, any other character stands for itself. -/
def pClsItems : List Char → Option (List (Char × Char) × List Char)
  | ']' :: s => some ([], s)
  | c1 :: '-' :: c2 :: s =>
    if c2 = ']' then some ([(c1, c1), ('-', '-')], s)
    else
      match pClsItems s with
      | some (is, s') => some ((c1, c2) :: is, s')
      | none => none
  | c :: s =>
    match pClsItems s with
    | some (is, s') => some ((c, c) :: is, s')
    | none => none
  | [] => none

/-- Skip a group name up to the closing `>` (of `(?P<name>`). -/
def dropGt : List Char → Option (List Char)
  | '>' :: s => some s
  | _ :: s => dropGt s
  | [] => none

/-- Apply one postfix quantifier, if present (the source's patterns never
stack quantifiers): `*`, `+` (as `e` then `e*`), `?` (as `e | eps`),
`{n}` (as an `n`-fold sequence). -/
def pSuf (r : RE) : List Char → RE × List Char
  | '*' :: s => (.star r, s)
  | '+' :: s => (.seq r (.star r), s)
  | '?' :: s => (.alt r .eps, s)
  | '{' :: s =>
    match pNum s 0 with
    | (n, '}' :: s') => (repRE r n, s')
    | _ => (r, '{' :: s)
  | s => (r, s)

/-- Recursive-descent regex parser, fueled.  `mode 0` parses an alternation,
`mode 1` a concatenation (up to `|`, `)` or the end), `mode 2` an atom with
its quantifier, `mode 3` a bare atom.  `g` is the next free group number
(groups are numbered by the order of their opening parenthesis, as in
Python; named groups `(?P<name>...)` are numbered too, and the name itself
is irrelevant to the source, which only ever reads groups positionally).
Returns the parsed tree, the remaining input and the updated group counter. -/
def pR (fuel : Nat) (mode : Nat) (s : List Char) (g : Nat) :
    Option (RE × List Char × Nat) :=
  match fuel with
  | 0 => none
  | f + 1 =>
    if mode = 0 then
      match pR f 1 s g with
      | some (r, '|' :: s', g') =>
        match pR f 0 s' g' with
        | some (r2, s'', g'') => some (.alt r r2, s'', g'')
        | none => none
      | some (r, s', g') => some (r, s', g')
      | none => none
    else if mode = 1 then
      match s with
      | [] => some (.eps, [], g)
      | ')' :: _ => some (.eps, s, g)
      | '|' :: _ => some (.eps, s, g)
      | _ =>
        match pR f 2 s g with
        | some (r, s', g') =>
          match pR f 1 s' g' with
          | some (r2, s'', g'') => some (.seq r r2, s'', g'')
          | none => none
        | none => none
    else if mode = 2 then
      match pR f 3 s g with
      | some (r, s', g') =>
        match pSuf r s' with
        | (r2, s'') => some (r2, s'', g')
      | none => none
    else
      match s with
      | '(' :: '?' :: ':' :: s' =>
        match pR f 0 s' g with
        | some (r, ')' :: s'', g') => some (r, s'', g')
        | _ => none
      | '(' :: '?' :: 'P' :: '<' :: s' =>
        match dropGt s' with
        | some s'' =>
          match pR f 0 s'' (g + 1) with
          | some (r, ')' :: s''', g') => some (.grp g r, s''', g')
          | _ => none
        | none => none
      | '(' :: '?' :: _ => none
      | '(' :: s' =>
        match pR f 0 s' (g + 1) with
        | some (r, ')' :: s'', g') => some (.grp g r, s'', g')
        | _ => none
      | '[' :: '^' :: s' =>
        match pClsItems s' with
        | some (items, s'') => some (.cls true items, s'', g)
        | none => none
      | '[' :: s' =>
        match pClsItems s' with
        | some (items, s'') => some (.cls false items, s'', g)
        | none => none
      | '.' :: s' => some (.dot, s', g)
      | '$' :: s' => some (.eos, s', g)
      | '\\' :: c :: s' => some (.lit c, s', g)
      | '^' :: _ => none
      | '*' :: _ => none
      | '+' :: _ => none
      | '?' :: _ => none
      | ')' :: _ => none
      | '|' :: _ => none
      | c :: s' => some (.lit c, s', g)
      | [] => none

/-- Compile a regex pattern string: parse it completely, returning the tree
and the number of capture groups (Python's `re.compile(p).groups`). -/
def compileRE (p : String) : Option (RE × Nat) :=
  match pR (8 * (p.length + 2)) 0 p.data 0 with
  | some (r, [], g) => some (r, g)
  | _ => none

/-- Result of the source's match helper `m` (`identifiers.py`, lines 80-111):
either a single value (when the pattern has exactly one capture group) or a
sequence of values, one per capture group.  Python returns a list of `None`s
in the unmatched case and a tuple of the groups in the matched case; both
are sequences of string-or-`None` entries, embedded here as `tup`. -/
inductive PyVal where
  | scalar (v : Option String)
  | tup (vs : List (Option String))
  deriving Repr, DecidableEq

/-- The source's `col_or_scalar`: unwrap a one-element sequence. -/
def colOrScalar (l : List (Option String)) : PyVal :=
  match l with
  | [v] => .scalar v
  | _ => .tup l

/-- The source's `m(pattern, string)` given an already compiled pattern `r`
with `n` groups: a sequence of `none`s (unwrapped when `n = 1`) when the
subject is absent or the pattern does not match, the captured groups
otherwise. -/
def mPV (r : RE) (n : Nat) (subject : Option String) : PyVal :=
  match subject with
  | none => colOrScalar (List.replicate n none)
  | some s =>
    match reMatch r n s with
    | none => colOrScalar (List.replicate n none)
    | some caps => colOrScalar caps

/-- The source's `m(pattern, string)` (`identifiers.py`, lines 80-111).
`none` only when the pattern string itself does not compile, which for the
source's fixed patterns never happens (Python would raise at `re.compile`). -/
def m (pattern : String) (subject : Option String) : Option PyVal :=
  match compileRE pattern with
  | none => none
  | some (r, n) => some (mPV r n subject)

/-- Replace every occurrence of the literal string `pat` by `rep`, scanning
left to right without rescanning replacements: `re.sub` with a pattern free
of metacharacters.  Fueled for structural recursion; one unit of fuel per
consumed character suffices. -/
def replSubF (fuel : Nat) (pat rep : List Char) (s : List Char) : List Char :=
  match fuel with
  | 0 => s
  | f + 1 =>
    match s with
    | [] => []
    | c :: rest =>
      if pat.isPrefixOf (c :: rest) && !pat.isEmpty then
        rep ++ replSubF f pat rep (List.drop pat.length (c :: rest))
      else c :: replSubF f pat rep rest

/-- Drop the leading run of copies of `c`. -/
def spanEq (c : Char) : List Char → List Char
  | [] => []
  | d :: rest => if d = c then spanEq c rest else d :: rest

/-- The source's first substitution pass (line 53),
`re.sub(r'(([0-9])\2*)', r'(?P<n\2>[0-9]+)', pattern)`: each maximal run of
one repeated decimal digit `d` becomes the group `(?P<nd>[0-9]+)`. -/
def digitRunPassF (fuel : Nat) (s : List Char) : List Char :=
  match fuel with
  | 0 => s
  | f + 1 =>
    match s with
    | [] => []
    | c :: rest =>
      if c.isDigit then
        "(?P<n".data ++ [c] ++ ">[0-9]+)".data ++ digitRunPassF f (spanEq c rest)
      else c :: digitRunPassF f rest

/-- The source's second pass (line 54), `re.sub(r's+', '(?P<sss>[0-9]+)')`:
each maximal run of `s` becomes the milliseconds group. -/
def sRunPassF (fuel : Nat) (s : List Char) : List Char :=
  match fuel with
  | 0 => s
  | f + 1 =>
    match s with
    | [] => []
    | c :: rest =>
      if c = 's' then
        "(?P<sss>[0-9]+)".data ++ sRunPassF f (spanEq 's' rest)
      else c :: sRunPassF f rest

/-- The source's pass 14 (line 66), `re.sub(r'\\.', '.', pattern)`: every
backslash followed by any character other than a newline (the `.` in the
pattern `\\.` is an unescaped wildcard) is replaced by a single dot. -/
def bsDotPassF (fuel : Nat) (s : List Char) : List Char :=
  match fuel with
  | 0 => s
  | f + 1 =>
    match s with
    | [] => []
    | '\\' :: c :: rest =>
      if c = '\n' then '\\' :: bsDotPassF f (c :: rest)
      else '.' :: bsDotPassF f rest
    | c :: rest => c :: bsDotPassF f rest

/-- Literal-replacement pass with self-sizing fuel. -/
def replPass (pat rep : String) (s : List Char) : List Char :=
  replSubF (s.length + 1) pat.data rep.data s

/-- The source's `timestamp2regex` (`identifiers.py`, lines 13-68): the
fifteen `re.sub` passes, applied in the source's order to the evolving
string.  Note the last three passes (lines 64-66): the `.ext` replacement
injects an unescaped dot; line 65 escapes every dot then present; line 66
rewrites every backslash-plus-character pair into a single dot, undoing
those escapes. -/
def timestamp2regex (p : String) : String :=
  let s := p.data
  let s := digitRunPassF (s.length + 1) s
  let s := sRunPassF (s.length + 1) s
  let s := replPass "yyyy" "(?P<yyyy>[0-9]{4})" s
  let s := replPass "mm" "(?P<mm>0[1-9]|1[0-2])" s
  let s := replPass "dd" "(?P<dd>0[1-9]|[1-2][0-9]|3[0-1])" s
  let s := replPass "DDD" "(?P<DDD>[0-3][0-9][0-9])" s
  let s := replPass "HH" "(?P<HH>[0-1][0-9]|2[0-3])" s
  let s := replPass "MM" "(?P<MM>[0-5][0-9])" s
  let s := replPass "SS" "(?P<SS>[0-5][0-9])" s
  let s := replPass "#" "[0-9]+" s
  let s := replPass "i" "[a-zA-Z][a-zA-Z0-9_]*" s
  let s := replPass ".ext" "(?:.(?P<ext>[a-zA-Z][a-zA-Z0-9_]*))" s
  let s := replPass "." "\\." s
  let s := bsDotPassF (s.length + 1) s
  let s := replPass "any" ".*" s
  String.mk s

/-- The regex tree of `r'^.*\\'` minus its `^` anchor.  The source strips
Windows directories with `c(r'^.*\\').sub('', pid)` (line 154); since the
pattern is anchored at the start and cannot match the empty string,
`re.sub` performs at most one replacement, at position 0, so the
substitution is exactly: drop the longest prefix (not crossing a newline)
that ends in a backslash, if any. -/
def winPatAst : RE := .seq (.star .dot) (.lit '\\')

/-- Line 154 of `identifiers.py`: `pid = c(r'^.*\\').sub('', pid)`. -/
def stripWindows (s : String) : String :=
  match mat (matFuel winPatAst s.data) winPatAst s.data [] (fun rest _ => some rest) with
  | some rest => String.mk rest
  | none => s

/-- The `(.*/)?(.*)` pattern of line 155 (namespace and suffix split). -/
def nsPatStr : String := "(.*/)?(.*)"

/-- The `(?:.*/)?(.*)/$` pattern of line 156 (time-series label). -/
def tsLabelPatStr : String := "(?:.*/)?(.*)/$"

/-- The schema-2 pattern of line 158, produced by `timestamp2regex`. -/
def v2PatStr : String := timestamp2regex "(D(yyyymmddTHHMMSS)_IFCB111)(any)"

/-- The schema-1 pattern of line 161, produced by `timestamp2regex`. -/
def v1PatStr : String := timestamp2regex "(IFCB1_(yyyy_DDD_HHMMSS))(any)"

/-- The target/product/extension pattern of line 172. -/
def tpePatStr : String :=
  "(?:_([0-9]+))?(?:_([a-zA-Z][a-zA-Z0-9_]*))?(?:\\.([a-zA-Z][a-zA-Z0-9]*))?"

/-- Python exceptions that `parse` can raise.  `typeErr` stands for
`TypeError` (raised by `str.join` when handed `None`, and for the
structurally impossible unpacking failures); `valueErr pid` stands for
`ValueError('invalid pid: %s' % pid)` from line 170. -/
inductive ParseErr where
  | typeErr
  | valueErr (pid : String)
  deriving Repr, DecidableEq

/-- Python `'_'.join([a, b])` where `a` and `b` may be `None`:
a `TypeError` unless both are strings. -/
def joinSep (sep : String) (a b : Option String) : Except ParseErr String :=
  match a, b with
  | some x, some y => .ok (x ++ sep ++ y)
  | _, _ => .error .typeErr

/-- Python `''.join([a, b, c])` with possibly-`None` entries. -/
def join3 (a b c : Option String) : Except ParseErr String :=
  match a, b, c with
  | some x, some y, some z => .ok (x ++ y ++ z)
  | _, _, _ => .error .typeErr

/-- The local variables of the source's `parse` just before the
target/product/extension step (line 172): everything bound by lines
154-170.  `month` stays at the schema-2 match's value (`None`) when the
schema-1 branch is taken, exactly as in the Python locals. -/
structure PreParse where
  pid : String
  namespace_ : Option String
  suffix : Option String
  ts_label : Option String
  bin_lid : String
  timestamp : Option String
  year : Option String
  month : Option String
  day : Option String
  hour : Option String
  minute : Option String
  second : Option String
  instrument : Option String
  schema_version : Nat
  timestamp_format : String
  yearday : String
  tpe : Option String
  deriving Repr, DecidableEq

/-- Lines 154-170 of `identifiers.py`.  Mirrors the source's control flow:
the schema-2 pattern is tried first; on failure (`bin_lid` absent) the
schema-1 pattern is tried, and `yearday = '_'.join([year, day])` is
computed *before* the `bin_lid is None` check of line 169, so when neither
grammar matches the join raises `TypeError` on `None` operands and line
170's `ValueError` is never reached.  The `.error .typeErr` fallbacks of
the outer matches model tuple-unpacking of an `m` result of the wrong
shape, which cannot happen for these fixed patterns. -/
def parsePre (pid0 : String) : Except ParseErr PreParse :=
  let pid := stripWindows pid0
  match m nsPatStr (some pid) with
  | some (.tup [namespace_, suffix]) =>
    match m tsLabelPatStr namespace_ with
    | some (.scalar ts_label) =>
      match m v2PatStr suffix with
      | some (.tup [bin_lid2, timestamp2, year2, month2, day2, hour2,
                    minute2, second2, instrument2, tpe2]) =>
        match bin_lid2 with
        | some bl =>
          match join3 year2 month2 day2 with
          | .error e => .error e
          | .ok yearday =>
            .ok { pid := pid, namespace_ := namespace_, suffix := suffix,
                  ts_label := ts_label, bin_lid := bl, timestamp := timestamp2,
                  year := year2, month := month2, day := day2, hour := hour2,
                  minute := minute2, second := second2,
                  instrument := instrument2, schema_version := 2,
                  timestamp_format := "%Y%m%dT%H%M%S", yearday := yearday,
                  tpe := tpe2 }
        | none =>
          match m v1PatStr suffix with
          | some (.tup [bin_lid1, instrument1, timestamp1, year1, day1,
                        hour1, minute1, second1, tpe1]) =>
            match joinSep "_" year1 day1 with
            | .error e => .error e
            | .ok yearday =>
              match bin_lid1 with
              | none => .error (.valueErr pid)
              | some bl =>
                .ok { pid := pid, namespace_ := namespace_, suffix := suffix,
                      ts_label := ts_label, bin_lid := bl,
                      timestamp := timestamp1, year := year1, month := month2,
                      day := day1, hour := hour1, minute := minute1,
                      second := second1, instrument := instrument1,
                      schema_version := 1,
                      timestamp_format := "%Y_%j_%H%M%S", yearday := yearday,
                      tpe := tpe1 }
          | _ => .error .typeErr
      | _ => .error .typeErr
    | _ => .error .typeErr
  | _ => .error .typeErr

/-- The dict returned by the source's `parse` (its `locals()` at line 182,
minus the deleted `tpe`).  Fields that come out of a regex group keep their
string-or-`None` type; `bin_lid`, `yearday`, `product`, `lid`,
`timestamp_format` are always strings on a successful parse. -/
structure ParsedPid where
  pid : String
  namespace_ : Option String
  suffix : Option String
  ts_label : Option String
  bin_lid : String
  timestamp : Option String
  year : Option String
  month : Option String
  day : Option String
  hour : Option String
  minute : Option String
  second : Option String
  instrument : Option String
  schema_version : Nat
  timestamp_format : String
  yearday : String
  target : Option String
  product : String
  extension : Option String
  lid : String
  deriving Repr, DecidableEq

/-- The source's `parse` (`identifiers.py`, lines 113-182): lines 154-170
via `parsePre`, then the target/product/extension match of line 172, the
`product = 'raw'` default of lines 173-174 and the `lid` derivation of
lines 175-178. -/
def parse (pid0 : String) : Except ParseErr ParsedPid :=
  match parsePre pid0 with
  | .error e => .error e
  | .ok p =>
    match m tpePatStr p.tpe with
    | some (.tup [target, product0, extension]) =>
      let product := match product0 with
        | none => "raw"
        | some pr => pr
      let lid := match target with
        | none => p.bin_lid
        | some t => p.bin_lid ++ "_" ++ t
      .ok { pid := p.pid, namespace_ := p.namespace_, suffix := p.suffix,
            ts_label := p.ts_label, bin_lid := p.bin_lid,
            timestamp := p.timestamp, year := p.year, month := p.month,
            day := p.day, hour := p.hour, minute := p.minute,
            second := p.second, instrument := p.instrument,
            schema_version := p.schema_version,
            timestamp_format := p.timestamp_format, yearday := p.yearday,
            target := target, product := product, extension := extension,
            lid := lid }
    | _ => .error .typeErr

/-- The product group captured from the trailing free-form suffix by the
line-172 match: `some tok` exactly when an underscore-prefixed product
token appears there.  Shares `parsePre` and the line-172 match with
`parse` (the source deletes the `tpe` local, so this is recomputed from
the same pipeline). -/
def productToken (pid0 : String) : Option String :=
  match parsePre pid0 with
  | .error _ => none
  | .ok p =>
    match m tpePatStr p.tpe with
    | some (.tup [_, pr, _]) => pr
    | _ => none

/-- The source's `Pid` object (`identifiers.py`, lines 184-242): it stores
the raw string; nothing else of its state matters to the embedded claims
(the parsed dict is recomputed on demand by `parse`). -/
structure Pid where
  pid : String
  deriving Repr, DecidableEq

/-- `Pid.__init__(self, pid, parse=True)` (lines 190-203): `self.pid` is set
to the raw string; when `parse` is true the constructor then forces
`self.parsed`, which calls the module-level `parse` and propagates its
exception, in which case no object is obtained by the caller. -/
def Pid.make (pid : String) (parseFlag : Bool) : Except ParseErr Pid :=
  if parseFlag then
    match parse pid with
    | .ok _ => .ok { pid := pid }
    | .error e => .error e
  else .ok { pid := pid }

/-- Attribute access `pid.bin_lid` (lines 234-238): parses on first access
and raises the parser's error when invalid. -/
def Pid.bin_lid (p : Pid) : Except ParseErr String :=
  (parse p.pid).map (fun d => d.bin_lid)

/-- Attribute access `pid.lid`. -/
def Pid.lid (p : Pid) : Except ParseErr String :=
  (parse p.pid).map (fun d => d.lid)

/-- One ADC record (row of the tabular record set handed to a Bin).  The
per-format readers and the column-layout registry (`adc.py`, `hdr.py`) are
outside `src/`; per the spec's tabular-record contract a row has at least a
trigger number and region-of-interest width and height, addressed here as
named fields instead of schema-named columns. -/
structure AdcRecord where
  trigger : Int
  roi_width : Int
  roi_height : Int
  deriving Repr, DecidableEq

/-- The Bin's tabular record set: rows keyed by target number, in storage
order (the embedding of the pandas DataFrame surface `bins.py` uses:
row filtering by a column predicate, `.index`, `.iloc[-1]`). -/
structure DataFrame where
  rows : List (Nat × AdcRecord)
  deriving Repr, DecidableEq

/-- The DataFrame's index (`adc.index`), i.e. the Bin's keys. -/
def DataFrame.keys (df : DataFrame) : List Nat := df.rows.map (fun kr => kr.1)

/-- A Bin (`bins.py`, `BaseBin`): its pid plus the tabular record set.
Header data and the metrics collaborator play no part in the embedded
claims. -/
structure Bin where
  pid : Pid
  adc : DataFrame
  deriving Repr, DecidableEq

/-- `BaseBin.images_adc` (lines 37-44):
`self.adc[self.adc[self.schema.ROI_WIDTH] > 0]`, the rows whose
region-of-interest width is positive. -/
def Bin.images_adc (b : Bin) : DataFrame :=
  ⟨b.adc.rows.filter (fun kr => decide (0 < kr.2.roi_width))⟩

/-- `BaseBin.lid` (lines 31-36): `self.pid.bin_lid`. -/
def Bin.lid (b : Bin) : Except ParseErr String := Pid.bin_lid b.pid

/-- `BaseBin.n_triggers` (lines 95-101): the trigger column of
`self.adc.iloc[-1]`, or 0 when the record set is empty (the `IndexError`
branch). -/
def Bin.n_triggers (b : Bin) : Int :=
  match b.adc.rows.getLast? with
  | none => 0
  | some kr => kr.2.trigger

def grpDigits : RE :=
  .seq (.seq (.cls false [('0', '9')]) (.star (.cls false [('0', '9')]))) .eps

/-- The compiled tree of `tpePatStr`, for the capture non-emptiness
argument. -/
def tpeAst : RE :=
  .seq (.alt (.seq (.lit '_') (.seq (.grp 0 grpDigits) .eps)) .eps)
    (.seq
      (.alt (.seq (.lit '_')
        (.seq (.grp 1 (.seq (.cls false [('a', 'z'), ('A', 'Z')])
          (.seq (.star (.cls false [('a', 'z'), ('A', 'Z'), ('0', '9'), ('_', '_')]))
            .eps))) .eps)) .eps)
      (.seq
        (.alt (.seq (.lit '.')
          (.seq (.grp 2 (.seq (.cls false [('a', 'z'), ('A', 'Z')])
            (.seq (.star (.cls false [('a', 'z'), ('A', 'Z'), ('0', '9')])) .eps)))
            .eps)) .eps)
        .eps))

set_option maxRecDepth 10000

def dotTemplateAst : RE := .seq (.lit 'a') (.seq .dot (.seq (.lit 'b') .eps))

def bsDotTemplateAst : RE :=
  .seq (.lit 'a') (.seq .dot (.seq .dot (.seq (.lit 'b') .eps)))

def sampleParsed : ParsedPid :=
  { pid := "D20160714T023910_IFCB101_00014.png", namespace_ := none,
    suffix := some "D20160714T023910_IFCB101_00014.png", ts_label := none,
    bin_lid := "D20160714T023910_IFCB101", timestamp := some "20160714T023910",
    year := some "2016", month := some "07", day := some "14",
    hour := some "02", minute := some "39", second := some "10",
    instrument := some "101", schema_version := 2,
    timestamp_format := "%Y%m%dT%H%M%S", yearday := "20160714",
    target := some "00014", product := "raw", extension := some "png",
    lid := "D20160714T023910_IFCB101_00014" }

def cex6Parsed : ParsedPid :=
  { pid := "D20160714T023910_IFCB101_raw", namespace_ := none,
    suffix := some "D20160714T023910_IFCB101_raw", ts_label := none,
    bin_lid := "D20160714T023910_IFCB101", timestamp := some "20160714T023910",
    year := some "2016", month := some "07", day := some "14",
    hour := some "02", minute := some "39", second := some "10",
    instrument := some "101", schema_version := 2,
    timestamp_format := "%Y%m%dT%H%M%S", yearday := "20160714",
    target := none, product := "raw", extension := none,
    lid := "D20160714T023910_IFCB101" }

def rec8 : AdcRecord := { trigger := 3, roi_width := 25, roi_height := 40 }

def bin8 : Bin :=
  { pid := { pid := "D20160714T023910_IFCB101" }, adc := { rows := [(1, rec8)] } }

def rec9 : AdcRecord := { trigger := 7, roi_width := 0, roi_height := 0 }

def bin9 : Bin :=
  { pid := { pid := "D20160714T023910_IFCB101" }, adc := { rows := [(1, rec9)] } }

def bin9e : Bin :=
  { pid := { pid := "D20160714T023910_IFCB101" }, adc := { rows := [] } }

def bin10 : Bin :=
  { pid := { pid := "D20160714T023910_IFCB101_00014.png" },
    adc := { rows := [] } }

theorem mat_len {α : Type} :
    ∀ (fuel : Nat) (r : RE) (s : List Char) (caps : List (Option String))
      (k : List Char → List (Option String) → Option α) (v : α),
      mat fuel r s caps k = some v →
      ∃ s' caps', k s' caps' = some v ∧ caps'.length = caps.length ∧
        s'.length ≤ s.length := by
  intro fuel
  induction fuel with
  | zero => intro r s caps k v h; simp [mat] at h
  | succ f ih =>
    intro r s caps k v h
    cases r with
    | eps => exact ⟨s, caps, h, rfl, Nat.le_refl _⟩
    | eos =>
      simp only [mat] at h
      split at h
      · exact ⟨s, caps, h, rfl, Nat.le_refl _⟩
      · cases h
    | dot =>
      cases s with
      | nil => simp [mat] at h
      | cons c rest =>
        simp only [mat] at h
        split at h
        · cases h
        · exact ⟨rest, caps, h, rfl, Nat.le_succ _⟩
    | lit c0 =>
      cases s with
      | nil => simp [mat] at h
      | cons c rest =>
        simp only [mat] at h
        split at h
        · exact ⟨rest, caps, h, rfl, Nat.le_succ _⟩
        · cases h
    | cls neg items =>
      cases s with
      | nil => simp [mat] at h
      | cons c rest =>
        simp only [mat] at h
        split at h
        · exact ⟨rest, caps, h, rfl, Nat.le_succ _⟩
        · cases h
    | seq a b =>
      simp only [mat] at h
      obtain ⟨s1, c1, hk1, hlen1, hle1⟩ := ih a s caps _ v h
      obtain ⟨s2, c2, hk2, hlen2, hle2⟩ := ih b s1 c1 k v hk1
      exact ⟨s2, c2, hk2, hlen2.trans hlen1, hle2.trans hle1⟩
    | alt a b =>
      simp only [mat] at h
      cases hm : mat f a s caps k with
      | some v' =>
        rw [hm] at h
        simp only [] at h
        injection h with hv
        subst hv
        exact ih a s caps k _ hm
      | none =>
        rw [hm] at h
        exact ih b s caps k v h
    | star a =>
      simp only [mat] at h
      cases hm : mat f a s caps (fun s1 c1 =>
          if s1.length = s.length then none else mat f (.star a) s1 c1 k) with
      | none =>
        rw [hm] at h
        exact ⟨s, caps, h, rfl, Nat.le_refl _⟩
      | some v' =>
        rw [hm] at h
        injection h with hv
        subst hv
        obtain ⟨s1, c1, hk1, hlen1, hle1⟩ := ih a s caps _ _ hm
        split at hk1
        · cases hk1
        · obtain ⟨s2, c2, hk2, hlen2, hle2⟩ := ih (.star a) s1 c1 k _ hk1
          exact ⟨s2, c2, hk2, hlen2.trans hlen1, hle2.trans hle1⟩
    | grp i a =>
      simp only [mat] at h
      obtain ⟨s1, c1, hk1, hlen1, hle1⟩ := ih a s caps _ v h
      refine ⟨s1, _, hk1, ?_, hle1⟩
      rw [List.length_set]
      exact hlen1

theorem good_set (c1 : List (Option String)) (i : Nat) (cap : String)
    (hc1 : GoodCaps c1) (hcap : cap ≠ "") :
    GoodCaps (c1.set i (some cap)) := by
  intro os hos st heq
  rcases List.mem_or_eq_of_mem_set hos with hmem | hval
  · exact hc1 os hmem st heq
  · rw [hval] at heq
    injection heq with hh
    rw [← hh]
    exact hcap

theorem take_ne_empty (s : List Char) (n : Nat) (hn : n ≠ 0) (hs : s ≠ []) :
    String.mk (List.take n s) ≠ "" := by
  intro hcon
  have hdata : (String.mk (List.take n s)).data = List.take n s := rfl
  rw [hcon] at hdata
  have : List.take n s = [] := hdata.symm
  rcases List.take_eq_nil_iff.mp this with h0 | h0
  · exact hn h0
  · exact hs h0

theorem mat_good {α : Type} :
    ∀ (fuel : Nat) (r : RE) (s : List Char) (caps : List (Option String))
      (k : List Char → List (Option String) → Option α) (v : α),
      mat fuel r s caps k = some v → allGrpMinOne r = true → GoodCaps caps →
      ∃ s' caps', k s' caps' = some v ∧ GoodCaps caps' ∧
        s'.length ≤ s.length ∧ (minOne r = true → s'.length < s.length) := by
  intro fuel
  induction fuel with
  | zero => intro r s caps k v h; simp [mat] at h
  | succ f ih =>
    intro r s caps k v h hg hc
    cases r with
    | eps =>
      exact ⟨s, caps, h, hc, Nat.le_refl _, by simp [minOne]⟩
    | eos =>
      simp only [mat] at h
      split at h
      · exact ⟨s, caps, h, hc, Nat.le_refl _, by simp [minOne]⟩
      · cases h
    | dot =>
      cases s with
      | nil => simp [mat] at h
      | cons c rest =>
        simp only [mat] at h
        split at h
        · cases h
        · exact ⟨rest, caps, h, hc, Nat.le_succ _, fun _ => Nat.lt_succ_self _⟩
    | lit c0 =>
      cases s with
      | nil => simp [mat] at h
      | cons c rest =>
        simp only [mat] at h
        split at h
        · exact ⟨rest, caps, h, hc, Nat.le_succ _, fun _ => Nat.lt_succ_self _⟩
        · cases h
    | cls neg items =>
      cases s with
      | nil => simp [mat] at h
      | cons c rest =>
        simp only [mat] at h
        split at h
        · exact ⟨rest, caps, h, hc, Nat.le_succ _, fun _ => Nat.lt_succ_self _⟩
        · cases h
    | seq a b =>
      simp only [mat] at h
      simp only [allGrpMinOne, Bool.and_eq_true] at hg
      obtain ⟨s1, c1, hk1, hc1, hle1, hst1⟩ := ih a s caps _ v h hg.1 hc
      obtain ⟨s2, c2, hk2, hc2, hle2, hst2⟩ := ih b s1 c1 k v hk1 hg.2 hc1
      refine ⟨s2, c2, hk2, hc2, hle2.trans hle1, ?_⟩
      intro hmo
      simp only [minOne, Bool.or_eq_true] at hmo
      rcases hmo with ha | hb
      · exact Nat.lt_of_le_of_lt hle2 (hst1 ha)
      · exact Nat.lt_of_lt_of_le (hst2 hb) hle1
    | alt a b =>
      simp only [mat] at h
      simp only [allGrpMinOne, Bool.and_eq_true] at hg
      cases hm : mat f a s caps k with
      | some v' =>
        rw [hm] at h
        injection h with hv
        subst hv
        obtain ⟨s', c', hk', hc', hle', hst'⟩ := ih a s caps k _ hm hg.1 hc
        refine ⟨s', c', hk', hc', hle', ?_⟩
        intro hmo
        simp only [minOne, Bool.and_eq_true] at hmo
        exact hst' hmo.1
      | none =>
        rw [hm] at h
        obtain ⟨s', c', hk', hc', hle', hst'⟩ := ih b s caps k v h hg.2 hc
        refine ⟨s', c', hk', hc', hle', ?_⟩
        intro hmo
        simp only [minOne, Bool.and_eq_true] at hmo
        exact hst' hmo.2
    | star a =>
      simp only [mat] at h
      simp only [allGrpMinOne] at hg
      cases hm : mat f a s caps (fun s1 c1 =>
          if s1.length = s.length then none else mat f (.star a) s1 c1 k) with
      | none =>
        rw [hm] at h
        exact ⟨s, caps, h, hc, Nat.le_refl _, by simp [minOne]⟩
      | some v' =>
        rw [hm] at h
        injection h with hv
        subst hv
        obtain ⟨s1, c1, hk1, hc1, hle1, _⟩ := ih a s caps _ _ hm hg hc
        split at hk1
        · cases hk1
        · obtain ⟨s2, c2, hk2, hc2, hle2, _⟩ := ih (.star a) s1 c1 k _ hk1 (by simpa [allGrpMinOne] using hg) hc1
          exact ⟨s2, c2, hk2, hc2, hle2.trans hle1, by simp [minOne]⟩
    | grp i a =>
      simp only [mat] at h
      simp only [allGrpMinOne, Bool.and_eq_true] at hg
      obtain ⟨s1, c1, hk1, hc1, hle1, hst1⟩ := ih a s caps _ v h hg.2 hc
      have hlt : s1.length < s.length := hst1 hg.1
      refine ⟨s1, _, hk1, ?_, hle1, ?_⟩
      · refine good_set c1 i _ hc1 ?_
        refine take_ne_empty s (s.length - s1.length) ?_ ?_
        · omega
        · intro hnil
          rw [hnil] at hlt
          simp at hlt
      · intro hmo
        simp only [minOne] at hmo
        exact hst1 hmo

theorem reMatch_length (r : RE) (n : Nat) (s : String)
    (caps : List (Option String)) (h : reMatch r n s = some caps) :
    caps.length = n := by
  unfold reMatch at h
  obtain ⟨s', c', hk, hlen, _⟩ := mat_len _ _ _ _ _ _ h
  injection hk with hh
  rw [hh] at hlen
  rw [List.length_replicate] at hlen
  exact hlen

theorem reMatch_good (r : RE) (n : Nat) (s : String)
    (caps : List (Option String)) (hg : allGrpMinOne r = true)
    (h : reMatch r n s = some caps) : GoodCaps caps := by
  unfold reMatch at h
  have hrep : GoodCaps (List.replicate n none) := by
    intro os hos st heq
    rw [List.eq_of_mem_replicate hos] at heq
    cases heq
  obtain ⟨s', c', hk, hc, _, _⟩ := mat_good _ _ _ _ _ _ h hg hrep
  injection hk with hh
  rw [← hh]
  exact hc

theorem colOrScalar_tup (l vs : List (Option String))
    (h : colOrScalar l = .tup vs) : l = vs := by
  unfold colOrScalar at h
  split at h
  · cases h
  · injection h

theorem tpe_compiled : compileRE tpePatStr = some (tpeAst, 3) := by decide

theorem tpe_product_nonempty (subj : Option String) (tg pr e : Option String)
    (t : String) (hm : m tpePatStr subj = some (.tup [tg, pr, e]))
    (hpr : pr = some t) : t ≠ "" := by
  subst hpr
  rw [m, tpe_compiled] at hm
  injection hm with hm
  cases subj with
  | none =>
    simp only [mPV] at hm
    simp [colOrScalar, List.replicate] at hm
  | some str =>
    simp only [mPV] at hm
    cases hr : reMatch tpeAst 3 str with
    | none => rw [hr] at hm; simp [colOrScalar, List.replicate] at hm
    | some caps =>
      rw [hr] at hm
      have hcaps := colOrScalar_tup caps _ hm
      have hgood := reMatch_good tpeAst 3 str caps (by decide) hr
      have hmem : some t ∈ caps := by rw [hcaps]; simp
      exact hgood (some t) hmem t rfl

theorem parse_lid_aux (s : String) (r : ParsedPid) (h : parse s = .ok r) :
    r.lid = (match r.target with
      | none => r.bin_lid
      | some t => r.bin_lid ++ "_" ++ t) := by
  unfold parse at h
  cases hp : parsePre s with
  | error e => rw [hp] at h; cases h
  | ok p =>
    rw [hp] at h
    simp only [] at h
    cases hm : m tpePatStr p.tpe with
    | none => rw [hm] at h; cases h
    | some pv =>
      rw [hm] at h
      cases pv with
      | scalar v => simp at h
      | tup vs =>
        match vs, h with
        | [target, product0, extension], h =>
          simp only [] at h
          injection h with hr
          subst hr
          cases target <;> rfl

/-- C6 (amended): for every successfully parsed pid, `product` is a
non-empty string; it equals the captured product token when one appears in
the trailing free-form suffix space and the literal "raw" otherwise (the
token itself may be "raw", which is what breaks the original "exactly
when"). -/
theorem product_nonempty_and_token (s : String) (r : ParsedPid)
    (h : parse s = .ok r) :
    r.product ≠ ""
    ∧ r.product = (match productToken s with
      | none => "raw"
      | some t => t) := by
  unfold parse at h
  unfold productToken
  cases hp : parsePre s with
  | error e => rw [hp] at h; cases h
  | ok p =>
    rw [hp] at h
    simp only [] at h
    cases hm : m tpePatStr p.tpe with
    | none => rw [hm] at h; cases h
    | some pv =>
      rw [hm] at h
      cases pv with
      | scalar v => simp at h
      | tup vs =>
        match vs, h, hm with
        | [target, product0, extension], h, hm =>
          simp only [] at h
          injection h with hr
          subst hr
          simp only []
          cases hpr : product0 with
          | none =>
            rw [hm]
            simp [hpr]
          | some t =>
            rw [hpr] at hm
            have hne := tpe_product_nonempty p.tpe target (some t) extension t hm rfl
            rw [hm]
            simp [hne]

/-- C4: for every pattern, the match helper `m` returns for an absent
subject, and for a non-matching subject, the same structure: absent markers,
one per capture group of the compiled pattern (the group count is structural,
independent of any match), unwrapped to the single value when the pattern
has exactly one group — in the unmatched and matched cases alike. -/
theorem match_engine_spec (p : String) (r : RE) (n : Nat) (s : String)
    (caps : List (Option String)) (hc : compileRE p = some (r, n)) :
    m p none = some (colOrScalar (List.replicate n none))
    ∧ (reMatch r n s = none → m p (some s) = m p none)
    ∧ (n = 1 → m p none = some (.scalar none))
    ∧ (reMatch r n s = some caps →
        caps.length = n ∧ m p (some s) = some (colOrScalar caps)
        ∧ (n = 1 → m p (some s) = some (.scalar (caps.headD none)))) := by
  refine ⟨?_, ?_, ?_, ?_⟩
  · simp [m, hc, mPV]
  · intro hnm
    simp [m, hc, mPV, hnm]
  · intro h1
    subst h1
    simp [m, hc, mPV, colOrScalar, List.replicate]
  · intro hsm
    have hlen := reMatch_length r n s caps hsm
    refine ⟨hlen, ?_, ?_⟩
    · simp [m, hc, mPV, hsm]
    · intro h1
      subst h1
      obtain ⟨x, hx⟩ : ∃ x, caps = [x] := by
        cases caps with
        | nil => simp at hlen
        | cons a t =>
          cases t with
          | nil => exact ⟨a, rfl⟩
          | cons b t2 => simp at hlen
      subst hx
      simp [m, hc, mPV, hsm, colOrScalar]

/-- C7: a constructed `Pid` preserves the raw string verbatim: whenever the
constructor yields an object (always, under deferred parsing; for eager
parsing the constructor re-raises on an invalid pid and no object is
produced), its `pid` attribute is the input string, whether or not it
parses. -/
theorem pid_roundtrip_verbatim (s : String) (flag : Bool) (p : Pid)
    (h : Pid.make s flag = .ok p) : p.pid = s := by
  unfold Pid.make at h
  split at h
  · cases hm : parse s with
    | ok d => rw [hm] at h; injection h with hh; rw [← hh]
    | error e => rw [hm] at h; cases h
  · injection h with hh
    rw [← hh]

/-- C8: for every Bin, the keys of the image subset are among the keys of
the full record set, and every record of the image subset has
region-of-interest width strictly greater than 0. -/
theorem bin_images_subset_and_positive_width (b : Bin) :
    (∀ k, k ∈ (Bin.images_adc b).keys → k ∈ b.adc.keys)
    ∧ (∀ kr, kr ∈ (Bin.images_adc b).rows → 0 < kr.2.roi_width) := by
  constructor
  · intro k hk
    simp only [Bin.images_adc, DataFrame.keys, List.mem_map] at hk ⊢
    obtain ⟨kr, hkr, hk⟩ := hk
    exact ⟨kr, (List.mem_filter.mp hkr).1, hk⟩
  · intro kr hkr
    have hp := (List.mem_filter.mp hkr).2
    exact of_decide_eq_true hp

/-- C9: for every Bin, `n_triggers` is the value of the trigger column in
the last row of the record set, and 0, without raising, when the record set
is empty. -/
theorem bin_n_triggers_last_or_zero (b : Bin) (pre : List (Nat × AdcRecord))
    (kr : Nat × AdcRecord) :
    (b.adc.rows = [] → Bin.n_triggers b = 0)
    ∧ (b.adc.rows = pre ++ [kr] → Bin.n_triggers b = kr.2.trigger) := by
  constructor
  · intro he
    simp [Bin.n_triggers, he]
  · intro he
    simp [Bin.n_triggers, he, List.getLast?_concat]

/-- C10: a Bin's `lid` property is the `bin_lid` of its Pid; when the Pid
carries a target number, the Bin's lid therefore drops the target suffix
and differs from the Pid's own `lid` field. -/
theorem bin_lid_drops_target (b : Bin) (r : ParsedPid) (t : String)
    (h : parse b.pid.pid = .ok r) :
    Bin.lid b = .ok r.bin_lid
    ∧ (r.target = some t → r.lid ≠ r.bin_lid ∧ Bin.lid b ≠ .ok r.lid) := by
  have hb : Bin.lid b = .ok r.bin_lid := by
    simp [Bin.lid, Pid.bin_lid, h, Except.map]
  refine ⟨hb, ?_⟩
  intro ht
  have hl := parse_lid_aux _ _ h
  rw [ht] at hl
  simp only [] at hl
  have hne : r.lid ≠ r.bin_lid := by
    rw [hl]
    intro hcon
    have hlen : (r.bin_lid ++ "_" ++ t).length = r.bin_lid.length :=
      congrArg String.length hcon
    rw [String.length_append, String.length_append] at hlen
    have h1 : ("_" : String).length = 1 := rfl
    omega
  refine ⟨hne, ?_⟩
  rw [hb]
  intro hcon
  injection hcon with hh
  exact hne hh.symm

/-- C5: refutation by evaluation of the dot-handling claim.  The template
"a.b" compiles to the regex "a.b", whose dot is an unescaped wildcard (the
compiled pattern matches "axb"), not an escaped literal dot; and the
template "a\\.b" compiles to "a..b", two wildcards (rejecting "axb" and
matching "axyb"), not a single unescaped wildcard: the line-66 pass
`re.sub(r'\\.', '.')` rewrites every backslash-character pair — including
every escape just introduced by the line-65 pass — into a dot. -/
theorem timestamp2regex_dot_wildcard :
    timestamp2regex "a.b" = "a.b"
    ∧ compileRE (timestamp2regex "a.b") = some (dotTemplateAst, 0)
    ∧ reMatch dotTemplateAst 0 "axb" = some []
    ∧ timestamp2regex "a\\.b" = "a..b"
    ∧ compileRE (timestamp2regex "a\\.b") = some (bsDotTemplateAst, 0)
    ∧ reMatch bsDotTemplateAst 0 "axb" = none
    ∧ reMatch bsDotTemplateAst 0 "axyb" = some [] := by
  refine ⟨by decide, by decide, by decide, by decide, by decide, by decide, by decide⟩

/-- C1: refutation by evaluation of the error contract.  For an input
matching neither grammar, the source's `parse` raises `TypeError` (line 164
joins the absent year and day before the validity check of line 169), not
the invalid-identifier `ValueError` of line 170, which is unreachable;
shown here at the non-matching input "notapid". -/
theorem parse_no_match_type_error :
    parse "notapid" = .error .typeErr
    ∧ parse "notapid" ≠ .error (.valueErr "notapid") := by
  refine ⟨by decide, by decide⟩

/-- C3: the identifier "IFCB3_2008_013423.adc" — listed in the source's own
docstring as an example pid and claimed to parse via the schema-1 grammar —
is rejected: the schema-1 regex requires an underscore between the
day-of-year and a six-digit time (`yyyy_DDD_HHMMSS`), so neither grammar
matches and `parse` raises `TypeError`. -/
theorem parse_docstring_example_rejected :
    parse "IFCB3_2008_013423.adc" = .error .typeErr := by decide

/-- C2: for every successfully parsed pid, `lid` equals `bin_lid` when
`target` is absent and `bin_lid ++ "_" ++ target` when a target is
present. -/
theorem parse_lid_composition (s : String) (r : ParsedPid)
    (h : parse s = .ok r) :
    r.lid = (match r.target with
      | none => r.bin_lid
      | some t => r.bin_lid ++ "_" ++ t) :=
  parse_lid_aux s r h

theorem parse_sample_ok :
    parse "D20160714T023910_IFCB101_00014.png" = .ok sampleParsed := by decide

theorem parse_lid_composition_witness :
    parse "D20160714T023910_IFCB101_00014.png" = .ok sampleParsed
    ∧ sampleParsed.lid = (match sampleParsed.target with
      | none => sampleParsed.bin_lid
      | some t => sampleParsed.bin_lid ++ "_" ++ t) :=
  ⟨parse_sample_ok, parse_lid_composition _ sampleParsed parse_sample_ok⟩

theorem match_engine_spec_witness :
    compileRE "(a)" = some (.seq (.grp 0 (.seq (.lit 'a') .eps)) .eps, 1)
    ∧ (m "(a)" none = some (colOrScalar (List.replicate 1 none))
       ∧ (reMatch (.seq (.grp 0 (.seq (.lit 'a') .eps)) .eps) 1 "b" = none →
           m "(a)" (some "b") = m "(a)" none)
       ∧ (1 = 1 → m "(a)" none = some (.scalar none))
       ∧ (reMatch (.seq (.grp 0 (.seq (.lit 'a') .eps)) .eps) 1 "b" = some [none] →
           ([none] : List (Option String)).length = 1
           ∧ m "(a)" (some "b") = some (colOrScalar [none])
           ∧ (1 = 1 →
               m "(a)" (some "b") =
                 some (.scalar (([none] : List (Option String)).headD none))))) :=
  ⟨by decide, match_engine_spec "(a)" _ 1 "b" [none] (by decide)⟩

theorem parse_cex6_ok :
    parse "D20160714T023910_IFCB101_raw" = .ok cex6Parsed := by decide

/-- C6 counterexample: for the pid "D20160714T023910_IFCB101_raw" an
underscore-prefixed product token ("raw") does appear in the trailing
suffix, yet the parsed `product` equals "raw", so "product equals the
literal raw exactly when no product token appears" fails in the only-if
direction. -/
theorem product_raw_iff_counterexample :
    parse "D20160714T023910_IFCB101_raw" = .ok cex6Parsed
    ∧ cex6Parsed.product = "raw"
    ∧ productToken "D20160714T023910_IFCB101_raw" = some "raw"
    ∧ ¬(cex6Parsed.product = "raw" ↔
        productToken "D20160714T023910_IFCB101_raw" = none) :=
  ⟨parse_cex6_ok, by decide, by decide, by decide⟩

theorem product_nonempty_and_token_witness :
    parse "D20160714T023910_IFCB101_raw" = .ok cex6Parsed
    ∧ (cex6Parsed.product ≠ ""
       ∧ cex6Parsed.product =
         (match productToken "D20160714T023910_IFCB101_raw" with
           | none => "raw"
           | some t => t)) :=
  ⟨parse_cex6_ok, product_nonempty_and_token _ cex6Parsed parse_cex6_ok⟩

theorem pid_roundtrip_verbatim_witness :
    Pid.make "notapid" false = .ok { pid := "notapid" }
    ∧ ({ pid := "notapid" } : Pid).pid = "notapid" :=
  ⟨by decide, pid_roundtrip_verbatim "notapid" false { pid := "notapid" } (by decide)⟩

theorem bin_images_subset_and_positive_width_witness :
    ((1 : Nat) ∈ (Bin.images_adc bin8).keys
      ∧ ((1 : Nat), rec8) ∈ (Bin.images_adc bin8).rows)
    ∧ (1 : Nat) ∈ bin8.adc.keys
    ∧ 0 < ((1 : Nat), rec8).2.roi_width :=
  ⟨⟨by decide, by decide⟩,
   (bin_images_subset_and_positive_width bin8).1 1 (by decide),
   (bin_images_subset_and_positive_width bin8).2 (1, rec8) (by decide)⟩

theorem bin_n_triggers_last_or_zero_witness :
    Bin.n_triggers bin9e = 0 ∧ Bin.n_triggers bin9 = rec9.trigger :=
  ⟨(bin_n_triggers_last_or_zero bin9e [] (1, rec9)).1 rfl,
   (bin_n_triggers_last_or_zero bin9 [] (1, rec9)).2 rfl⟩

theorem bin_lid_drops_target_witness :
    parse bin10.pid.pid = .ok sampleParsed
    ∧ (Bin.lid bin10 = .ok sampleParsed.bin_lid
       ∧ (sampleParsed.target = some "00014" →
           sampleParsed.lid ≠ sampleParsed.bin_lid
           ∧ Bin.lid bin10 ≠ .ok sampleParsed.lid)) :=
  ⟨parse_sample_ok, bin_lid_drops_target bin10 sampleParsed "00014" parse_sample_ok⟩

end Ifcb
